import Mathlib

/-!
Verification of the cluster-VPC network convergence core
(pkg/providers/aws/cluster_vpc.go) against its specification.

The Go source is shallowly embedded: the EC2 provider is a record of
listings (VPCs, subnets, security groups), listing calls read from that
record, and the two mutating calls (create-security-group,
authorize-ingress) are recorded as an explicit call trace whose effect on
the provider record is modelled separately.  External collaborators
(GetClusterID, BuildInfraName) are passed in as already-resolved values
or oracles, matching the spec, which places them outside this core.
-/

namespace ClusterVpc

/-- Error taxonomy of the spec (section 7).  The Go code produces plain
wrapped string errors; each error site is classified by the kind the spec
assigns it, keeping the message text of the source. -/
inductive ErrKind
  | notFound
  | timeout
  | provider
deriving DecidableEq, Repr

structure CvErr where
  kind : ErrKind
  msg : String
deriving DecidableEq, Repr

/-- errorUtil.Wrap: prefixes a context message, keeping the cause. -/
def CvErr.wrap (e : CvErr) (c : String) : CvErr :=
  ⟨e.kind, c ++ ": " ++ e.msg⟩

/-- An AWS tag: Key/Value pair (ec2.Tag with pointers dereferenced). -/
structure Tag where
  key : String
  value : String
deriving DecidableEq, Repr

/-- ec2.Vpc, restricted to the fields the source reads. -/
structure Vpc where
  vpcId : String
  cidrBlock : String
  tags : List Tag
deriving DecidableEq, Repr

/-- ec2.Subnet, restricted to the fields the source reads. -/
structure Subnet where
  subnetId : String
  vpcId : String
  tags : List Tag
deriving DecidableEq, Repr

/-- ec2.IpRange: CidrIp and Description are both pointers in the SDK, so
they are Options here; reflect.DeepEqual compares both fields. -/
structure IpRange where
  cidrIp : Option String
  description : Option String
deriving DecidableEq, Repr

/-- ec2.Ipv6Range. -/
structure Ipv6Range where
  cidrIpv6 : Option String
  description : Option String
deriving DecidableEq, Repr

/-- ec2.PrefixListId. -/
structure PrefixListId where
  description : Option String
  prefixListId : Option String
deriving DecidableEq, Repr

/-- ec2.UserIdGroupPair. -/
structure UserIdGroupPair where
  description : Option String
  groupId : Option String
  groupName : Option String
  peeringStatus : Option String
  userId : Option String
  vpcId : Option String
  vpcPeeringConnectionId : Option String
deriving DecidableEq, Repr

/-- ec2.IpPermission with all of its fields, so that the derived
structural equality coincides with reflect.DeepEqual on the Go struct. -/
structure IpPermission where
  fromPort : Option Int
  ipProtocol : Option String
  ipRanges : List IpRange
  ipv6Ranges : List Ipv6Range
  prefixListIds : List PrefixListId
  toPort : Option Int
  userIdGroupPairs : List UserIdGroupPair
deriving DecidableEq, Repr

/-- ec2.SecurityGroup, restricted to the fields the source reads. -/
structure SecurityGroup where
  groupId : String
  groupName : String
  vpcId : String
  ipPermissions : List IpPermission
deriving DecidableEq, Repr

/-- The provider state the listing calls (DescribeVpcs,
DescribeSecurityGroups) read from. -/
structure EC2State where
  vpcs : List Vpc
  subnets : List Subnet
  securityGroups : List SecurityGroup
deriving DecidableEq, Repr

/-- The caller-supplied context.  The only property of it this core could
observe is whether its deadline has already expired. -/
structure Ctx where
  expired : Bool
deriving DecidableEq, Repr

/-! ## getVpc: scan of the VPC listing (cluster_vpc.go lines 240-253) -/

/-- Whether a single tag of a VPC matches the cluster: the Go comparison
tag.Value == fmt.Sprintf("%s-vpc", clusterID). -/
def tagMatchesCluster (clusterID : String) (tag : Tag) : Bool :=
  tag.value == clusterID ++ "-vpc"

/-- The double loop of getVpc: for each vpc, for each tag, assign
foundVPC = vpc when the tag value matches; no break, so a later match
overwrites an earlier one. -/
def getVpcScan (clusterID : String) (vpcs : List Vpc) : Option Vpc :=
  vpcs.foldl
    (fun found vpc =>
      vpc.tags.foldl
        (fun f tag => if tagMatchesCluster clusterID tag then some vpc else f)
        found)
    none

/-- getVpc: the scan, then the nil check producing the source error
message (classified NotFound by the spec taxonomy). -/
def getVpc (clusterID : String) (vpcs : List Vpc) : Except CvErr Vpc :=
  match getVpcScan clusterID vpcs with
  | some v => .ok v
  | none => .error ⟨.notFound, "error, no vpc found"⟩

/-- A VPC matches when some tag value equals clusterID ++ "-vpc". -/
def vpcMatches (clusterID : String) (vpc : Vpc) : Bool :=
  vpc.tags.any (tagMatchesCluster clusterID)

/-! ## The eventually-consistent lister (cluster_vpc.go lines 208-222)

getSubnets runs wait.PollImmediate(5s, 5min, cond) where cond calls
DescribeSubnets and swallows its error (returns false, nil).  Time is
modelled by the second at which each attempt runs: the immediate attempt
at second 0, then one attempt per 5-second tick strictly before the
300-second budget; when the budget runs out the outcome is the generic
wait.ErrWaitTimeout error and the full budget has elapsed. -/

def pollIntervalSec : Nat := 5

def pollTimeoutSec : Nat := 300

/-- wait.ErrWaitTimeout, classified Timeout by the spec taxonomy. -/
def timeoutErr : CvErr := ⟨.timeout, "timed out waiting for the condition"⟩

instance {ε α : Type} [DecidableEq ε] [DecidableEq α] :
    DecidableEq (Except ε α) := fun x y =>
  match x, y with
  | .ok a, .ok b => decidable_of_iff (a = b) (by simp)
  | .ok _, .error _ => isFalse (by simp)
  | .error _, .ok _ => isFalse (by simp)
  | .error e, .error f => decidable_of_iff (e = f) (by simp)

/-- Outcome of a bounded poll: how many seconds of the poll elapsed, and
the result. -/
structure PollOutcome (α : Type) where
  elapsedSec : Nat
  result : Except CvErr α
deriving DecidableEq, Repr

/-- The poll loop: fuel counts the remaining attempts, t is the second at
which the next attempt runs. -/
def pollFrom {α : Type} (cond : Nat → Option α) : Nat → Nat → PollOutcome α
  | 0, _ => ⟨pollTimeoutSec, .error timeoutErr⟩
  | fuel + 1, t =>
    match cond t with
    | some a => ⟨t, .ok a⟩
    | none => pollFrom cond fuel (t + pollIntervalSec)

/-- wait.PollImmediate: the first attempt runs immediately (second 0);
attempts run every interval within the budget. -/
def pollImmediate {α : Type} (cond : Nat → Option α) : PollOutcome α :=
  pollFrom cond (pollTimeoutSec / pollIntervalSec) 0

/-- getSubnets: the listing call is a function of the attempt time (the
provider may answer differently while credentials propagate); a failed
call is swallowed (cond returns false, nil). -/
def getSubnets (listFn : Nat → Except String (List Subnet)) :
    PollOutcome (List Subnet) :=
  pollImmediate (fun t => (listFn t).toOption)

/-- The seconds at which the poll runs its attempts. -/
def pollTimes : List Nat :=
  (List.range (pollTimeoutSec / pollIntervalSec)).map
    (fun k => pollIntervalSec * k)

/-! ## GetVPCSubnets and GetPrivateSubnetIDS (lines 98-132, 156-189) -/

/-- getVpc including the cluster-identity lookup: resources.GetClusterID
is an external collaborator, passed as an oracle on the context. -/
def getVpcFull (ctx : Ctx) (getClusterID : Ctx → Except CvErr String)
    (vpcs : List Vpc) : Except CvErr Vpc :=
  match getClusterID ctx with
  | .error e => .error (e.wrap "error getting clusterID")
  | .ok cid => getVpc cid vpcs

/-- GetVPCSubnets: polls the subnet listing first, then resolves the
cluster VPC and filters the polled subnets by owning-VPC id.  The context
is received from the caller but flows only into the cluster-identity
oracle, never into the poll. -/
def GetVPCSubnets (ctx : Ctx) (getClusterID : Ctx → Except CvErr String)
    (listFn : Nat → Except String (List Subnet)) (vpcs : List Vpc) :
    PollOutcome (List Subnet) :=
  let po := getSubnets listFn
  match po.result with
  | .error e => ⟨po.elapsedSec, .error (e.wrap "error getting subnets")⟩
  | .ok subs =>
    match getVpcFull ctx getClusterID vpcs with
    | .error e => ⟨po.elapsedSec, .error (e.wrap "error getting vpcs")⟩
    | .ok vpc =>
      let associatedSubs := subs.filter (fun sub => sub.vpcId == vpc.vpcId)
      if associatedSubs.isEmpty then
        ⟨po.elapsedSec,
          .error ⟨.notFound,
            "error, unable to find subnets associated with cluster vpc"⟩⟩
      else
        ⟨po.elapsedSec, .ok associatedSubs⟩

/-- A word character of the RE2 class backslash-w: ASCII letters, digits,
underscore. -/
def isWordChar (c : Char) : Bool :=
  c.isAlphanum || c == '_'

/-- Whether pat occurs as a contiguous segment of l. -/
def containsSeg (pat l : List Char) : Bool :=
  (List.range (l.length + 1)).any (fun i =>
    (l.drop i).take pat.length == pat)

/-- The private-subnet pattern of the source, a word-boundary RE2 regex:
boundary, any word characters, the literal private, any word characters,
boundary.  A string matches iff some segment of it lies between word
boundaries, consists of word characters only, and contains the literal
private. -/
def privateTagMatch (s : String) : Bool :=
  let cs := s.toList
  (List.range (cs.length + 1)).any (fun i =>
    (List.range (cs.length + 1)).any (fun j =>
      decide (i ≤ j) &&
      (i == 0 || !(isWordChar (cs.getD (i - 1) ' '))) &&
      (j == cs.length || !(isWordChar (cs.getD j ' '))) &&
      ((cs.drop i).take (j - i)).all isWordChar &&
      containsSeg (String.toList "private") ((cs.drop i).take (j - i))))

/-- Whether some tag value of the subnet matches the private pattern. -/
def subnetHasPrivateTag (sub : Subnet) : Bool :=
  sub.tags.any (fun tag => privateTagMatch tag.value)

/-- The nested loop of GetPrivateSubnetIDS: for each subnet, for each
tag, append the subnet when the tag value matches — one append per
matching tag, not per subnet. -/
def privateCollect (subs : List Subnet) : List Subnet :=
  subs.foldl
    (fun acc sub =>
      sub.tags.foldl
        (fun acc2 tag =>
          if privateTagMatch tag.value then acc2 ++ [sub] else acc2)
        acc)
    []

/-- GetPrivateSubnetIDS: associated subnets, filtered by the private tag
pattern, projected to ids, with the empty-result error of the source. -/
def GetPrivateSubnetIDS (ctx : Ctx) (getClusterID : Ctx → Except CvErr String)
    (listFn : Nat → Except String (List Subnet)) (vpcs : List Vpc) :
    PollOutcome (List String) :=
  let r := GetVPCSubnets ctx getClusterID listFn vpcs
  match r.result with
  | .error e => ⟨r.elapsedSec, .error (e.wrap "error getting vpc subnets")⟩
  | .ok subs =>
    let subIDs := (privateCollect subs).map (fun sub => sub.subnetId)
    if subIDs.isEmpty then
      ⟨r.elapsedSec,
        .error ⟨.notFound, "failed to get list of private subnet ids"⟩⟩
    else
      ⟨r.elapsedSec, .ok subIDs⟩

/-! ## SetupSecurityGroup (lines 27-95) and the provider effect model -/

/-- getSecurityGroup (lines 256-273): first listed group whose name
equals the derived name; the loop breaks on the first match. -/
def getSecurityGroup (groups : List SecurityGroup) (secName : String) :
    Option SecurityGroup :=
  groups.find? (fun g => g.groupName == secName)

/-- The desired ingress permission built at lines 66-73: protocol
wildcard, a single IP range holding the VPC CIDR, every other field left
at its zero value. -/
def desiredPermission (cidr : String) : IpPermission :=
  { fromPort := none
    ipProtocol := some "-1"
    ipRanges := [⟨some cidr, none⟩]
    ipv6Ranges := []
    prefixListIds := []
    toPort := none
    userIdGroupPairs := [] }

/-- The mutating EC2 calls the source can issue, recorded with their
arguments. -/
inductive AwsCall
  | createSecurityGroup (description groupName vpcId : String)
  | authorizeIngress (groupId : String) (perms : List IpPermission)
deriving DecidableEq, Repr

def AwsCall.isCreate : AwsCall → Bool
  | .createSecurityGroup _ _ _ => true
  | .authorizeIngress _ _ => false

/-- SetupSecurityGroup.  GetClusterID and BuildInfraName are external
collaborators; their already-resolved results are the clusterID and
secName inputs (their failure paths only wrap and return, which no claim
touches).  GetCidr resolves the cluster VPC and projects its id and CIDR
block.  The returned list records the mutating calls issued, in order. -/
def SetupSecurityGroup (clusterID secName : String) (st : EC2State) :
    Except CvErr Unit × List AwsCall :=
  match getVpc clusterID st.vpcs with
  | .error e => (.error (e.wrap "error finding cidr block"), [])
  | .ok vpc =>
    match getSecurityGroup st.securityGroups secName with
    | none =>
      (.ok (),
        [.createSecurityGroup ("security group for cluster " ++ clusterID)
          secName vpc.vpcId])
    | some foundSecGroup =>
      let ipPermission := desiredPermission vpc.cidrBlock
      if ipPermission ∈ foundSecGroup.ipPermissions then
        (.ok (), [])
      else
        (.ok (),
          [.authorizeIngress foundSecGroup.groupId [ipPermission]])

/-- Modelled from the spec: the provider effect of each mutating call
(section 6 network provider API, not part of this core).  Creating a
security group appends a group with a provider-assigned fresh id and no
permissions; authorize-ingress appends the given permissions to the
group with the given id. -/
def applyCall (freshId : String) (st : EC2State) : AwsCall → EC2State
  | .createSecurityGroup _ name vpcId =>
    { st with securityGroups := st.securityGroups ++ [⟨freshId, name, vpcId, []⟩] }
  | .authorizeIngress gid perms =>
    { st with securityGroups :=
        st.securityGroups.map (fun g =>
          if g.groupId == gid then
            { g with ipPermissions := g.ipPermissions ++ perms }
          else g) }

/-- Modelled from the spec: provider effect of a call sequence. -/
def applyCalls (freshId : String) (st : EC2State) (calls : List AwsCall) :
    EC2State :=
  calls.foldl (applyCall freshId) st

/-- The frame relation on security-group listings: every group survives
with identity, name and owning VPC unchanged and its permission list only
extended at the end, and the listing never shrinks — no group is deleted
and no existing ingress permission is removed or altered. -/
def groupsPreserved (gs gs2 : List SecurityGroup) : Prop :=
  gs.length ≤ gs2.length ∧
  ∀ g, g ∈ gs → ∃ g2, g2 ∈ gs2 ∧
    g2.groupId = g.groupId ∧ g2.groupName = g.groupName ∧
    g2.vpcId = g.vpcId ∧ ∃ rest, g2.ipPermissions = g.ipPermissions ++ rest

lemma tags_foldl_eq (clusterID : String) (vpc : Vpc) (tags : List Tag)
    (init : Option Vpc) :
    tags.foldl
      (fun f tag => if tagMatchesCluster clusterID tag then some vpc else f)
      init
      = if tags.any (tagMatchesCluster clusterID) then some vpc else init := by
  induction tags generalizing init with
  | nil => simp
  | cons t ts ih =>
    simp only [List.foldl_cons, List.any_cons, ih]
    by_cases h : tagMatchesCluster clusterID t <;> simp [h]

lemma getVpcScan_eq_simple (clusterID : String) (vpcs : List Vpc) :
    getVpcScan clusterID vpcs
      = vpcs.foldl
          (fun found vpc => if vpcMatches clusterID vpc then some vpc else found)
          none := by
  unfold getVpcScan
  apply List.foldl_ext
  intro a vpc _
  rw [tags_foldl_eq]
  rfl

lemma lastMatch_scan {α : Type} (p : α → Bool) (l : List α) (init : Option α) :
    l.foldl (fun found v => if p v then some v else found) init
      = match (l.filter p).getLast? with
        | some v => some v
        | none => init := by
  induction l generalizing init with
  | nil => simp
  | cons v vs ih =>
    simp only [List.foldl_cons, List.filter_cons]
    by_cases h : p v
    · rw [if_pos h, if_pos h, ih]
      rcases hl : (vs.filter p).getLast? with _ | w <;>
        simp [List.getLast?_cons, hl]
    · rw [if_neg h, if_neg h, ih]

/-- C4.  findCanonicalDomain (getVpc) scans all listed VPCs and selects
the one having some tag whose value equals clusterID ++ "-vpc"; when
several match, the last one encountered in listing order is returned;
when none matches, it fails with a NotFound error and returns no
domain. -/
theorem getVpc_last_match (clusterID : String) (vpcs : List Vpc) :
    getVpc clusterID vpcs
      = match (vpcs.filter (vpcMatches clusterID)).getLast? with
        | some v => .ok v
        | none => .error ⟨.notFound, "error, no vpc found"⟩ := by
  unfold getVpc
  rw [getVpcScan_eq_simple, lastMatch_scan]
  rcases (vpcs.filter (vpcMatches clusterID)).getLast? with _ | v <;> rfl

/-! ## Poll loop lemmas -/

lemma pollFrom_all_fail {α : Type} (cond : Nat → Option α) :
    ∀ (fuel t : Nat), (∀ k, k < fuel → cond (t + pollIntervalSec * k) = none) →
      pollFrom cond fuel t = ⟨pollTimeoutSec, .error timeoutErr⟩ := by
  intro fuel
  induction fuel with
  | zero => intro t _; rfl
  | succ f ih =>
    intro t h
    have h0 : cond t = none := by
      have := h 0 (Nat.succ_pos f)
      simpa using this
    have hrest : ∀ k, k < f → cond (t + pollIntervalSec + pollIntervalSec * k) = none := by
      intro k hk
      have := h (k + 1) (Nat.succ_lt_succ hk)
      rw [Nat.mul_add, Nat.mul_one] at this
      rw [Nat.add_assoc, Nat.add_comm pollIntervalSec (pollIntervalSec * k)]
      exact this
    simp only [pollFrom, h0]
    exact ih (t + pollIntervalSec) hrest

lemma pollFrom_first_success {α : Type} (cond : Nat → Option α) (a : α) :
    ∀ (j fuel t : Nat), j < fuel →
      (∀ k, k < j → cond (t + pollIntervalSec * k) = none) →
      cond (t + pollIntervalSec * j) = some a →
      pollFrom cond fuel t = ⟨t + pollIntervalSec * j, .ok a⟩ := by
  intro j
  induction j with
  | zero =>
    intro fuel t hf _ hc
    rcases fuel with _ | f
    · exact absurd hf (Nat.lt_irrefl 0)
    · simp only [Nat.mul_zero, Nat.add_zero] at hc
      simp [pollFrom, hc]
  | succ j ih =>
    intro fuel t hf hnone hc
    rcases fuel with _ | f
    · exact absurd hf (Nat.not_lt_zero _)
    · have h0 : cond t = none := by
        have := hnone 0 (Nat.succ_pos j)
        simpa using this
      simp only [pollFrom, h0]
      have hshift : t + pollIntervalSec * (j + 1)
          = t + pollIntervalSec + pollIntervalSec * j := by
        rw [Nat.mul_add, Nat.mul_one]
        omega
      rw [hshift]
      apply ih f (t + pollIntervalSec) (Nat.lt_of_succ_lt_succ hf)
      · intro k hk
        have := hnone (k + 1) (Nat.succ_lt_succ hk)
        rw [Nat.mul_add, Nat.mul_one] at this
        rw [Nat.add_assoc, Nat.add_comm pollIntervalSec (pollIntervalSec * k)]
        exact this
      · rw [← hshift]; exact hc

lemma mem_pollTimes {t : Nat} :
    t ∈ pollTimes ↔ ∃ k, k < 60 ∧ t = pollIntervalSec * k := by
  simp only [pollTimes, List.mem_map, List.mem_range]
  constructor
  · rintro ⟨k, hk, rfl⟩
    exact ⟨k, by norm_num [pollTimeoutSec, pollIntervalSec] at hk ⊢; omega, rfl⟩
  · rintro ⟨k, hk, rfl⟩
    exact ⟨k, by norm_num [pollTimeoutSec, pollIntervalSec]; omega, rfl⟩

/-- C5.  The eventually-consistent lister invokes the listing function
immediately; while polling, every failure is swallowed and never becomes
the result; the first successful attempt stops the poll and its items
are returned without error; and when every attempt in the window fails,
the outcome is the generic timeout error after the full budget,
independent of the failure causes. -/
theorem lister_poll_spec (listFn : Nat → Except String (List Subnet)) :
    (∀ xs, listFn 0 = .ok xs → getSubnets listFn = ⟨0, .ok xs⟩) ∧
    ((∀ t, t ∈ pollTimes → (listFn t).toOption = none) →
      getSubnets listFn = ⟨pollTimeoutSec, .error timeoutErr⟩) ∧
    (∀ t xs, t ∈ pollTimes → listFn t = .ok xs →
      (∀ s, s ∈ pollTimes → s < t → (listFn s).toOption = none) →
      getSubnets listFn = ⟨t, .ok xs⟩) := by
  have hfuel : pollTimeoutSec / pollIntervalSec = 60 := by
    norm_num [pollTimeoutSec, pollIntervalSec]
  refine ⟨?_, ?_, ?_⟩
  · intro xs h
    unfold getSubnets pollImmediate
    rw [hfuel]
    have := pollFrom_first_success (fun t => (listFn t).toOption) xs 0 60 0
      (by norm_num) (fun k hk => absurd hk (Nat.not_lt_zero k))
      (by show (listFn (0 + pollIntervalSec * 0)).toOption = some xs
          rw [Nat.mul_zero, Nat.add_zero, h]; rfl)
    simpa using this
  · intro h
    unfold getSubnets pollImmediate
    rw [hfuel]
    apply pollFrom_all_fail
    intro k hk
    have hmem : pollIntervalSec * k ∈ pollTimes := mem_pollTimes.mpr ⟨k, hk, rfl⟩
    simpa using h _ hmem
  · intro t xs hmem hok hbefore
    obtain ⟨k, hk, rfl⟩ := mem_pollTimes.mp hmem
    unfold getSubnets pollImmediate
    rw [hfuel]
    have heq := pollFrom_first_success (fun s => (listFn s).toOption) xs k 60 0 hk
      (fun j hj => by
        have hjmem : pollIntervalSec * j ∈ pollTimes :=
          mem_pollTimes.mpr ⟨j, Nat.lt_trans hj hk, rfl⟩
        have hppos : 0 < pollIntervalSec := by norm_num [pollIntervalSec]
        have hlt : pollIntervalSec * j < pollIntervalSec * k :=
          (Nat.mul_lt_mul_left hppos).mpr hj
        simpa using hbefore _ hjmem hlt)
      (by simpa using congrArg Except.toOption hok)
    simpa using heq

/-- C5 witness: a listing that succeeds at once returns its items with
no error and no elapsed interval. -/
theorem lister_poll_spec_witness :
    getSubnets (fun _ => .ok [⟨"subnet-1", "vpc-1", []⟩])
      = ⟨0, .ok [⟨"subnet-1", "vpc-1", []⟩]⟩ :=
  (lister_poll_spec (fun _ => .ok [⟨"subnet-1", "vpc-1", []⟩])).1 _ rfl

/-! ## C8: the poll and the caller deadline -/

/-- C8 counterexample.  A context whose deadline has already expired when
polling begins does not cause immediate failure: with an always-failing
listing function, GetVPCSubnets consumes the full 300-second budget (60
whole 5-second intervals) before failing with the timeout error, so the
operation does not fail without consuming a full interval. -/
theorem lister_deadline_counterexample :
    (Ctx.mk true).expired = true ∧
    GetVPCSubnets ⟨true⟩
      (fun c => if c.expired then
          .error ⟨.provider, "context deadline exceeded"⟩
        else .ok "test")
      (fun _ => .error "AuthFailure: not authorized")
      []
      = ⟨pollTimeoutSec, .error (timeoutErr.wrap "error getting subnets")⟩ ∧
    pollIntervalSec ≤ pollTimeoutSec := by
  refine ⟨rfl, ?_, by norm_num [pollIntervalSec, pollTimeoutSec]⟩
  rfl

/-- C8 amended.  The subnet poll never observes the caller context: for
every context, expired or not, and every cluster-identity oracle, a
listing function that fails at every attempt makes GetVPCSubnets fail
with the timeout error only after the full 5-minute budget, never
immediately. -/
theorem lister_ignores_deadline (ctx : Ctx)
    (getClusterID : Ctx → Except CvErr String)
    (listFn : Nat → Except String (List Subnet)) (vpcs : List Vpc)
    (hfail : ∀ t, (listFn t).toOption = none) :
    GetVPCSubnets ctx getClusterID listFn vpcs
      = ⟨pollTimeoutSec, .error (timeoutErr.wrap "error getting subnets")⟩ := by
  have hpoll : getSubnets listFn = ⟨pollTimeoutSec, .error timeoutErr⟩ := by
    unfold getSubnets pollImmediate
    exact pollFrom_all_fail _ _ _ (fun k _ => hfail _)
  simp [GetVPCSubnets, hpoll]

/-- C8 amended witness: an expired context with an always-failing lister
reaches the timeout with the full budget elapsed. -/
theorem lister_ignores_deadline_witness :
    GetVPCSubnets ⟨true⟩ (fun _ => .error ⟨.provider, "expired"⟩)
      (fun _ => .error "RequestLimitExceeded") []
      = ⟨pollTimeoutSec, .error (timeoutErr.wrap "error getting subnets")⟩ :=
  lister_ignores_deadline ⟨true⟩ _ _ _ (fun _ => rfl)

/-! ## C6: GetVPCSubnets -/

/-- C6.  When the subnet poll has succeeded with a listing, GetVPCSubnets
returns exactly the listed subnets whose owning-VPC id equals the
canonical VPC id; when the canonical VPC resolves but no subnet is
associated it fails with the NotFound error instead of returning an
empty list; when the canonical VPC cannot be found it fails with a
NotFound-kind error; and a successful result is never empty. -/
theorem vpc_subnets_spec (ctx : Ctx) (getClusterID : Ctx → Except CvErr String)
    (listFn : Nat → Except String (List Subnet)) (vpcs : List Vpc)
    (t : Nat) (subs : List Subnet)
    (hpoll : getSubnets listFn = ⟨t, .ok subs⟩) :
    (∀ vpc, getVpcFull ctx getClusterID vpcs = .ok vpc →
      (subs.filter (fun sub => sub.vpcId == vpc.vpcId) ≠ [] →
        GetVPCSubnets ctx getClusterID listFn vpcs
          = ⟨t, .ok (subs.filter (fun sub => sub.vpcId == vpc.vpcId))⟩) ∧
      (subs.filter (fun sub => sub.vpcId == vpc.vpcId) = [] →
        GetVPCSubnets ctx getClusterID listFn vpcs
          = ⟨t, .error ⟨.notFound,
              "error, unable to find subnets associated with cluster vpc"⟩⟩)) ∧
    (∀ cid, getClusterID ctx = .ok cid → getVpcScan cid vpcs = none →
      ∃ e, GetVPCSubnets ctx getClusterID listFn vpcs = ⟨t, .error e⟩ ∧
        e.kind = .notFound) ∧
    (∀ u l, GetVPCSubnets ctx getClusterID listFn vpcs = ⟨u, .ok l⟩ →
      l ≠ []) := by
  refine ⟨?_, ?_, ?_⟩
  · intro vpc hvpc
    constructor
    · intro hne
      have hempty : (subs.filter (fun sub => sub.vpcId == vpc.vpcId)).isEmpty = false := by
        rcases h : subs.filter (fun sub => sub.vpcId == vpc.vpcId) with _ | _
        · exact absurd h hne
        · rw [h]; rfl
      simp [GetVPCSubnets, hpoll, hvpc, hempty]
    · intro he
      simp [GetVPCSubnets, hpoll, hvpc, he]
  · intro cid hcid hscan
    have hv : getVpcFull ctx getClusterID vpcs
        = .error ⟨.notFound, "error, no vpc found"⟩ := by
      simp [getVpcFull, hcid, getVpc, hscan]
    refine ⟨CvErr.wrap ⟨.notFound, "error, no vpc found"⟩ "error getting vpcs",
      ?_, rfl⟩
    simp [GetVPCSubnets, hpoll, hv]
  · intro u l hl
    intro hleq
    rcases hv : getVpcFull ctx getClusterID vpcs with e | vpc
    · simp [GetVPCSubnets, hpoll, hv] at hl
    · rcases hemp : (subs.filter (fun sub => sub.vpcId == vpc.vpcId)).isEmpty with _ | _
      · simp [GetVPCSubnets, hpoll, hv, hemp] at hl
        rcases hl with ⟨_, hl⟩
        rw [← hl] at hleq
        rw [List.isEmpty_eq_false_iff_exists_mem] at hemp
        rcases hemp with ⟨x, hx⟩
        rw [hleq] at hx
        exact absurd hx (List.not_mem_nil x)
      · simp [GetVPCSubnets, hpoll, hv, hemp] at hl

/-- C6 witness: one associated subnet is kept, the foreign one dropped. -/
theorem vpc_subnets_spec_witness :
    GetVPCSubnets ⟨false⟩ (fun _ => .ok "prod")
      (fun _ => .ok [⟨"subnet-a", "vpc-7", []⟩, ⟨"subnet-b", "vpc-9", []⟩])
      [⟨"vpc-7", "10.2.0.0/16", [⟨"Name", "prod-vpc"⟩]⟩]
      = ⟨0, .ok [⟨"subnet-a", "vpc-7", []⟩]⟩ :=
  ((vpc_subnets_spec ⟨false⟩ (fun _ => .ok "prod")
      (fun _ => .ok [⟨"subnet-a", "vpc-7", []⟩, ⟨"subnet-b", "vpc-9", []⟩])
      [⟨"vpc-7", "10.2.0.0/16", [⟨"Name", "prod-vpc"⟩]⟩]
      0 [⟨"subnet-a", "vpc-7", []⟩, ⟨"subnet-b", "vpc-9", []⟩]
      (by rfl)).1
    ⟨"vpc-7", "10.2.0.0/16", [⟨"Name", "prod-vpc"⟩]⟩ (by decide)).1 (by decide)

/-! ## C7 and C10: GetPrivateSubnetIDS -/

lemma inner_tags_foldl (sub : Subnet) (tags : List Tag) (acc : List Subnet) :
    tags.foldl
      (fun acc2 tag => if privateTagMatch tag.value then acc2 ++ [sub] else acc2)
      acc
      = acc ++ (tags.filter (fun tag => privateTagMatch tag.value)).map
          (fun _ => sub) := by
  induction tags generalizing acc with
  | nil => simp
  | cons tg ts ih =>
    simp only [List.foldl_cons, List.filter_cons]
    by_cases h : privateTagMatch tg.value
    · rw [if_pos h, if_pos h, ih, List.map_cons]
      simp [List.append_assoc]
    · rw [if_neg h, if_neg h, ih]

lemma privateCollect_eq (subs : List Subnet) :
    privateCollect subs
      = subs.flatMap (fun sub =>
          (sub.tags.filter (fun tag => privateTagMatch tag.value)).map
            (fun _ => sub)) := by
  suffices h : ∀ acc : List Subnet,
      subs.foldl
        (fun acc sub =>
          sub.tags.foldl
            (fun acc2 tag =>
              if privateTagMatch tag.value then acc2 ++ [sub] else acc2)
            acc)
        acc
      = acc ++ subs.flatMap (fun sub =>
          (sub.tags.filter (fun tag => privateTagMatch tag.value)).map
            (fun _ => sub)) by
    simpa [privateCollect] using h []
  induction subs with
  | nil => intro acc; simp
  | cons s ss ih =>
    intro acc
    simp only [List.foldl_cons, List.flatMap_cons]
    rw [inner_tags_foldl, ih, List.append_assoc]

lemma mem_privateIds (subs : List Subnet) (sid : String) :
    sid ∈ (privateCollect subs).map (fun sub => sub.subnetId)
      ↔ ∃ sub, sub ∈ subs ∧ sub.subnetId = sid ∧ subnetHasPrivateTag sub := by
  rw [privateCollect_eq]
  simp only [List.mem_map, List.mem_flatMap, List.mem_filter,
    subnetHasPrivateTag, List.any_eq_true]
  constructor
  · rintro ⟨x, ⟨sub, hsub, tg, ⟨htg, hm⟩, rfl⟩, hid⟩
    exact ⟨sub, hsub, hid, tg, htg, hm⟩
  · rintro ⟨sub, hsub, hid, tg, htg, hm⟩
    exact ⟨sub, ⟨sub, hsub, tg, ⟨htg, hm⟩, rfl⟩, hid⟩

/-- C7.  After a successful associated-subnet resolution,
GetPrivateSubnetIDS includes an identifier exactly when some associated
subnet carries it and has a tag value matching the private word-boundary
pattern, and fails with the NotFound error when no associated subnet has
such a tag. -/
theorem private_subnet_ids_spec (ctx : Ctx)
    (getClusterID : Ctx → Except CvErr String)
    (listFn : Nat → Except String (List Subnet)) (vpcs : List Vpc)
    (t : Nat) (subs : List Subnet)
    (hsubs : GetVPCSubnets ctx getClusterID listFn vpcs = ⟨t, .ok subs⟩) :
    ((∀ sub, sub ∈ subs → subnetHasPrivateTag sub = false) →
      GetPrivateSubnetIDS ctx getClusterID listFn vpcs
        = ⟨t, .error ⟨.notFound, "failed to get list of private subnet ids"⟩⟩) ∧
    ((∃ sub, sub ∈ subs ∧ subnetHasPrivateTag sub) →
      ∃ ids, GetPrivateSubnetIDS ctx getClusterID listFn vpcs = ⟨t, .ok ids⟩ ∧
        ∀ sid, sid ∈ ids
          ↔ ∃ sub, sub ∈ subs ∧ sub.subnetId = sid ∧ subnetHasPrivateTag sub) := by
  constructor
  · intro hnone
    have hids : (privateCollect subs).map (fun sub => sub.subnetId) = [] := by
      rw [List.eq_nil_iff_forall_not_mem]
      intro sid hsid
      rcases (mem_privateIds subs sid).mp hsid with ⟨sub, hsub, _, hpriv⟩
      rw [hnone sub hsub] at hpriv
      exact Bool.false_ne_true hpriv
    simp [GetPrivateSubnetIDS, hsubs, hids]
  · rintro ⟨sub, hsub, hpriv⟩
    have hmem : sub.subnetId ∈ (privateCollect subs).map (fun s => s.subnetId) :=
      (mem_privateIds subs sub.subnetId).mpr ⟨sub, hsub, rfl, hpriv⟩
    have hemp : ((privateCollect subs).map (fun s => s.subnetId)).isEmpty = false := by
      rw [List.isEmpty_eq_false]
      exact List.ne_nil_of_mem hmem
    refine ⟨(privateCollect subs).map (fun s => s.subnetId), ?_,
      fun sid => mem_privateIds subs sid⟩
    simp [GetPrivateSubnetIDS, hsubs, hemp]

/-- C7 witness: the spec test vector — only the subnet with tag value
cluster-private-a is returned. -/
theorem private_subnet_ids_spec_witness :
    ∃ ids, GetPrivateSubnetIDS ⟨false⟩ (fun _ => .ok "cluster")
      (fun _ => .ok [⟨"subnet-priv", "vpc-1", [⟨"Name", "cluster-private-a"⟩]⟩,
        ⟨"subnet-pub", "vpc-1", [⟨"Name", "cluster-public-a"⟩]⟩])
      [⟨"vpc-1", "10.0.0.0/16", [⟨"Name", "cluster-vpc"⟩]⟩]
      = ⟨0, .ok ids⟩ ∧
      ∀ sid, sid ∈ ids
        ↔ ∃ sub,
            sub ∈ [(⟨"subnet-priv", "vpc-1", [⟨"Name", "cluster-private-a"⟩]⟩ : Subnet),
              ⟨"subnet-pub", "vpc-1", [⟨"Name", "cluster-public-a"⟩]⟩] ∧
            sub.subnetId = sid ∧ subnetHasPrivateTag sub :=
  (private_subnet_ids_spec ⟨false⟩ (fun _ => .ok "cluster")
      (fun _ => .ok [⟨"subnet-priv", "vpc-1", [⟨"Name", "cluster-private-a"⟩]⟩,
        ⟨"subnet-pub", "vpc-1", [⟨"Name", "cluster-public-a"⟩]⟩])
      [⟨"vpc-1", "10.0.0.0/16", [⟨"Name", "cluster-vpc"⟩]⟩]
      0 _ (by decide)).2
    ⟨⟨"subnet-priv", "vpc-1", [⟨"Name", "cluster-private-a"⟩]⟩,
      by decide, by decide⟩

lemma count_map_const {α β : Type} [DecidableEq β] (b c : β) (l : List α) :
    ((l.map (fun _ => b)).count c) = if b = c then l.length else 0 := by
  induction l with
  | nil => simp
  | cons x xs ih =>
    simp only [List.map_cons, List.count_cons, ih]
    by_cases h : b = c <;> simp [h]

lemma privateIds_count (subs : List Subnet) (sid : String) :
    ((privateCollect subs).map (fun sub => sub.subnetId)).count sid
      = (subs.map (fun sub =>
          if sub.subnetId = sid
          then (sub.tags.filter (fun tag => privateTagMatch tag.value)).length
          else 0)).sum := by
  rw [privateCollect_eq]
  induction subs with
  | nil => simp
  | cons s ss ih =>
    simp only [List.flatMap_cons, List.map_append, List.count_append,
      List.map_cons, List.sum_cons, List.map_map]
    rw [ih]
    congr 1
    exact count_map_const s.subnetId sid _

lemma sum_single_filter (subs : List Subnet) (sub : Subnet)
    (h : subs.filter (fun s => s.subnetId == sub.subnetId) = [sub]) :
    (subs.map (fun s =>
        if s.subnetId = sub.subnetId
        then (s.tags.filter (fun tag => privateTagMatch tag.value)).length
        else 0)).sum
      = (sub.tags.filter (fun tag => privateTagMatch tag.value)).length := by
  induction subs with
  | nil => simp at h
  | cons x xs ih =>
    rw [List.filter_cons] at h
    by_cases hx : x.subnetId == sub.subnetId
    · rw [if_pos hx] at h
      injection h with h1 h2
      subst h1
      simp only [List.map_cons, List.sum_cons]
      have hxs : (xs.map (fun s =>
          if s.subnetId = x.subnetId
          then (s.tags.filter (fun tag => privateTagMatch tag.value)).length
          else 0)).sum = 0 := by
        apply List.sum_eq_zero
        intro n hn
        rcases List.mem_map.mp hn with ⟨s, hs, rfl⟩
        have hsne := List.filter_eq_nil_iff.mp h2 s hs
        rw [if_neg (by simpa using hsne)]
      simp [hxs]
    · rw [if_neg hx] at h
      simp only [List.map_cons, List.sum_cons]
      rw [ih h, if_neg (by simpa using hx)]
      exact Nat.zero_add _

/-- C10.  A subnet that is the unique carrier of its identifier among the
associated subnets and has k matching private tag values appears k times
in the returned identifier list: GetPrivateSubnetIDS appends the subnet
once per matching tag, and the result has duplicates as soon as k
exceeds one. -/
theorem private_subnet_ids_duplication (ctx : Ctx)
    (getClusterID : Ctx → Except CvErr String)
    (listFn : Nat → Except String (List Subnet)) (vpcs : List Vpc)
    (t : Nat) (subs : List Subnet) (sub : Subnet) (k : Nat)
    (hsubs : GetVPCSubnets ctx getClusterID listFn vpcs = ⟨t, .ok subs⟩)
    (huniq : subs.filter (fun s => s.subnetId == sub.subnetId) = [sub])
    (hk : (sub.tags.filter (fun tag => privateTagMatch tag.value)).length = k)
    (hpos : 1 ≤ k) :
    ∃ ids, GetPrivateSubnetIDS ctx getClusterID listFn vpcs = ⟨t, .ok ids⟩ ∧
      ids.count sub.subnetId = k ∧ (2 ≤ k → ¬ ids.Nodup) := by
  have hcount : ((privateCollect subs).map (fun s => s.subnetId)).count sub.subnetId = k := by
    rw [privateIds_count, sum_single_filter subs sub huniq, hk]
  have hmem : sub.subnetId ∈ (privateCollect subs).map (fun s => s.subnetId) := by
    rw [← List.count_pos_iff, hcount]
    omega
  have hemp : ((privateCollect subs).map (fun s => s.subnetId)).isEmpty = false := by
    rw [List.isEmpty_eq_false]
    exact List.ne_nil_of_mem hmem
  refine ⟨(privateCollect subs).map (fun s => s.subnetId), ?_, hcount, ?_⟩
  · simp [GetPrivateSubnetIDS, hsubs, hemp]
  · intro h2 hnodup
    have := List.nodup_iff_count_le_one.mp hnodup sub.subnetId
    rw [hcount] at this
    omega

/-- C10 witness: a subnet with two matching private tag values occurs
twice in the result, which is therefore not duplicate-free. -/
theorem private_subnet_ids_duplication_witness :
    ∃ ids, GetPrivateSubnetIDS ⟨false⟩ (fun _ => .ok "c2")
      (fun _ => .ok [⟨"subnet-dup", "vpc-1",
        [⟨"kubernetes", "x-private-1"⟩, ⟨"role", "y-private-2"⟩]⟩])
      [⟨"vpc-1", "10.3.0.0/16", [⟨"Name", "c2-vpc"⟩]⟩]
      = ⟨0, .ok ids⟩ ∧
      ids.count "subnet-dup" = 2 ∧ (2 ≤ 2 → ¬ ids.Nodup) :=
  private_subnet_ids_duplication ⟨false⟩ (fun _ => .ok "c2")
    (fun _ => .ok [⟨"subnet-dup", "vpc-1",
      [⟨"kubernetes", "x-private-1"⟩, ⟨"role", "y-private-2"⟩]⟩])
    [⟨"vpc-1", "10.3.0.0/16", [⟨"Name", "c2-vpc"⟩]⟩]
    0 [⟨"subnet-dup", "vpc-1",
      [⟨"kubernetes", "x-private-1"⟩, ⟨"role", "y-private-2"⟩]⟩]
    ⟨"subnet-dup", "vpc-1",
      [⟨"kubernetes", "x-private-1"⟩, ⟨"role", "y-private-2"⟩]⟩ 2
    (by decide) (by decide) (by decide) (by norm_num)

/-! ## C2 and C3: SetupSecurityGroup branches -/

/-- C2.  When the named group exists, the desired permission is the
wildcard-protocol, single-CIDR tuple built from the canonical VPC CIDR;
if some existing permission equals it structurally in every field, no
mutating call is made, and otherwise exactly one authorize-ingress call
is issued, adding exactly that one permission to that group. -/
theorem ensure_posture_present_spec (clusterID secName : String)
    (st : EC2State) (vpc : Vpc) (g : SecurityGroup)
    (hvpc : getVpc clusterID st.vpcs = .ok vpc)
    (hg : getSecurityGroup st.securityGroups secName = some g) :
    (desiredPermission vpc.cidrBlock).ipProtocol = some "-1" ∧
    (desiredPermission vpc.cidrBlock).ipRanges = [⟨some vpc.cidrBlock, none⟩] ∧
    (desiredPermission vpc.cidrBlock ∈ g.ipPermissions →
      SetupSecurityGroup clusterID secName st = (.ok (), [])) ∧
    (desiredPermission vpc.cidrBlock ∉ g.ipPermissions →
      SetupSecurityGroup clusterID secName st
        = (.ok (), [.authorizeIngress g.groupId
            [desiredPermission vpc.cidrBlock]])) := by
  refine ⟨rfl, rfl, ?_, ?_⟩ <;>
    intro h <;> simp [SetupSecurityGroup, hvpc, hg, h]

/-- C2 witness: an existing permission differing from the desired one
only in the description field of its IP range is not structurally equal,
so one authorize-ingress call is issued for the desired permission. -/
theorem ensure_posture_present_spec_witness :
    SetupSecurityGroup "test" "test-sg"
      ⟨[⟨"vpc-1", "10.0.0.0/16", [⟨"Name", "test-vpc"⟩]⟩], [],
        [⟨"sg-1", "test-sg", "vpc-1",
          [⟨none, some "-1", [⟨some "10.0.0.0/16", some "managed"⟩],
            [], [], none, []⟩]⟩]⟩
      = (.ok (), [.authorizeIngress "sg-1"
          [desiredPermission "10.0.0.0/16"]]) :=
  (ensure_posture_present_spec "test" "test-sg"
      ⟨[⟨"vpc-1", "10.0.0.0/16", [⟨"Name", "test-vpc"⟩]⟩], [],
        [⟨"sg-1", "test-sg", "vpc-1",
          [⟨none, some "-1", [⟨some "10.0.0.0/16", some "managed"⟩],
            [], [], none, []⟩]⟩]⟩
      ⟨"vpc-1", "10.0.0.0/16", [⟨"Name", "test-vpc"⟩]⟩
      ⟨"sg-1", "test-sg", "vpc-1",
        [⟨none, some "-1", [⟨some "10.0.0.0/16", some "managed"⟩],
          [], [], none, []⟩]⟩
      (by decide) (by decide)).2.2.2 (by decide)

/-- C3.  When no listed group carries the derived name, exactly one
create-security-group call is issued, with the derived name, a
description referencing the cluster identity, and the canonical VPC id;
the invocation returns success and performs no authorize-ingress call. -/
theorem ensure_posture_absent_spec (clusterID secName : String)
    (st : EC2State) (vpc : Vpc)
    (hvpc : getVpc clusterID st.vpcs = .ok vpc)
    (hg : getSecurityGroup st.securityGroups secName = none) :
    SetupSecurityGroup clusterID secName st
      = (.ok (), [.createSecurityGroup
          ("security group for cluster " ++ clusterID) secName vpc.vpcId]) ∧
    ∀ gid ps, AwsCall.authorizeIngress gid ps
        ∉ (SetupSecurityGroup clusterID secName st).2 := by
  have h : SetupSecurityGroup clusterID secName st
      = (.ok (), [.createSecurityGroup
          ("security group for cluster " ++ clusterID) secName vpc.vpcId]) := by
    simp [SetupSecurityGroup, hvpc, hg]
  refine ⟨h, ?_⟩
  intro gid ps hmem
  rw [h] at hmem
  simp at hmem

/-- C3 witness: against a state with the cluster VPC and no groups, the
single call is the create call for the derived name and VPC. -/
theorem ensure_posture_absent_spec_witness :
    SetupSecurityGroup "demo" "demo-sg"
      ⟨[⟨"vpc-2", "10.5.0.0/16", [⟨"Name", "demo-vpc"⟩]⟩], [], []⟩
      = (.ok (), [.createSecurityGroup "security group for cluster demo"
          "demo-sg" "vpc-2"]) :=
  (ensure_posture_absent_spec "demo" "demo-sg"
      ⟨[⟨"vpc-2", "10.5.0.0/16", [⟨"Name", "demo-vpc"⟩]⟩], [], []⟩
      ⟨"vpc-2", "10.5.0.0/16", [⟨"Name", "demo-vpc"⟩]⟩
      (by decide) rfl).1

/-! ## C9: frame of the provider effects -/

lemma applyCall_vpcs (freshId : String) (st : EC2State) (c : AwsCall) :
    (applyCall freshId st c).vpcs = st.vpcs := by
  cases c <;> rfl

lemma applyCall_subnets (freshId : String) (st : EC2State) (c : AwsCall) :
    (applyCall freshId st c).subnets = st.subnets := by
  cases c <;> rfl

lemma applyCalls_vpcs (freshId : String) (st : EC2State) (calls : List AwsCall) :
    (applyCalls freshId st calls).vpcs = st.vpcs := by
  induction calls generalizing st with
  | nil => rfl
  | cons c cs ih =>
    show (applyCalls freshId (applyCall freshId st c) cs).vpcs = st.vpcs
    rw [ih, applyCall_vpcs]

lemma applyCalls_subnets (freshId : String) (st : EC2State) (calls : List AwsCall) :
    (applyCalls freshId st calls).subnets = st.subnets := by
  induction calls generalizing st with
  | nil => rfl
  | cons c cs ih =>
    show (applyCalls freshId (applyCall freshId st c) cs).subnets = st.subnets
    rw [ih, applyCall_subnets]

lemma groupsPreserved_refl (gs : List SecurityGroup) : groupsPreserved gs gs :=
  ⟨Nat.le_refl _, fun g hg => ⟨g, hg, rfl, rfl, rfl, [], (List.append_nil _).symm⟩⟩

lemma groupsPreserved_trans {a b c : List SecurityGroup}
    (h1 : groupsPreserved a b) (h2 : groupsPreserved b c) :
    groupsPreserved a c := by
  obtain ⟨hl1, hp1⟩ := h1
  obtain ⟨hl2, hp2⟩ := h2
  refine ⟨Nat.le_trans hl1 hl2, fun g hg => ?_⟩
  obtain ⟨g2, hg2, hid, hname, hvpc, rest1, hperm⟩ := hp1 g hg
  obtain ⟨g3, hg3, hid2, hname2, hvpc2, rest2, hperm2⟩ := hp2 g2 hg2
  exact ⟨g3, hg3, by rw [hid2, hid], by rw [hname2, hname], by rw [hvpc2, hvpc],
    rest1 ++ rest2, by rw [hperm2, hperm, List.append_assoc]⟩

lemma applyCall_preserves (freshId : String) (st : EC2State) (c : AwsCall) :
    groupsPreserved st.securityGroups (applyCall freshId st c).securityGroups := by
  cases c with
  | createSecurityGroup d n v =>
    refine ⟨by simp [applyCall], fun g hg => ?_⟩
    exact ⟨g, by simp [applyCall]; exact Or.inl hg, rfl, rfl, rfl, [],
      (List.append_nil _).symm⟩
  | authorizeIngress gid ps =>
    refine ⟨by simp [applyCall], fun g hg => ?_⟩
    by_cases h : g.groupId == gid
    · refine ⟨{g with ipPermissions := g.ipPermissions ++ ps}, ?_, rfl, rfl, rfl,
        ps, rfl⟩
      simp only [applyCall]
      exact List.mem_map.mpr ⟨g, hg, by simp [h]⟩
    · refine ⟨g, ?_, rfl, rfl, rfl, [], (List.append_nil _).symm⟩
      simp only [applyCall]
      exact List.mem_map.mpr ⟨g, hg, by simp [h]⟩

lemma applyCalls_preserves (freshId : String) (st : EC2State)
    (calls : List AwsCall) :
    groupsPreserved st.securityGroups (applyCalls freshId st calls).securityGroups := by
  induction calls generalizing st with
  | nil => exact groupsPreserved_refl _
  | cons c cs ih =>
    exact groupsPreserved_trans (applyCall_preserves freshId st c)
      (ih (applyCall freshId st c))

/-- C9.  The only mutating calls an invocation can issue are
create-security-group and authorize-ingress, and applying their provider
effects leaves the VPC listing and the subnet listing unchanged, deletes
no security group, and removes or alters no existing ingress permission
(each existing permission list is only ever extended). -/
theorem setup_frame_effects (clusterID secName freshId : String)
    (st : EC2State) :
    (∀ c, c ∈ (SetupSecurityGroup clusterID secName st).2 →
      (∃ d n v, c = .createSecurityGroup d n v) ∨
      (∃ gid ps, c = .authorizeIngress gid ps)) ∧
    (applyCalls freshId st (SetupSecurityGroup clusterID secName st).2).vpcs
      = st.vpcs ∧
    (applyCalls freshId st (SetupSecurityGroup clusterID secName st).2).subnets
      = st.subnets ∧
    groupsPreserved st.securityGroups
      (applyCalls freshId st
        (SetupSecurityGroup clusterID secName st).2).securityGroups := by
  refine ⟨?_, applyCalls_vpcs _ _ _, applyCalls_subnets _ _ _,
    applyCalls_preserves _ _ _⟩
  intro c _
  cases c with
  | createSecurityGroup d n v => exact Or.inl ⟨d, n, v, rfl⟩
  | authorizeIngress gid ps => exact Or.inr ⟨gid, ps, rfl⟩

/-! ## C1: idempotence across invocations -/

lemma getSecurityGroup_map_upd (groups : List SecurityGroup) (secName : String)
    (upd : SecurityGroup → SecurityGroup)
    (hname : ∀ g, (upd g).groupName = g.groupName) :
    getSecurityGroup (groups.map upd) secName
      = (getSecurityGroup groups secName).map upd := by
  unfold getSecurityGroup
  rw [List.find?_map]
  have hcomp : ((fun g => g.groupName == secName) ∘ upd)
      = (fun g => g.groupName == secName) := by
    funext g
    simp [Function.comp, hname g]
  rw [hcomp]

/-- C1 counterexample.  From a state holding the cluster VPC and no
security group, the first invocation succeeds (it issues the create
call), yet the second invocation against the state reflecting that
effect issues an authorize-ingress call — an additional mutating call —
so two invocations do not suffice for idempotence. -/
theorem ensure_posture_idempotence_counterexample :
    (SetupSecurityGroup "test" "test-security-group"
      ⟨[⟨"vpc-1", "10.0.0.0/16", [⟨"Name", "test-vpc"⟩]⟩], [], []⟩).1
      = .ok () ∧
    (SetupSecurityGroup "test" "test-security-group"
      (applyCalls "sg-1"
        ⟨[⟨"vpc-1", "10.0.0.0/16", [⟨"Name", "test-vpc"⟩]⟩], [], []⟩
        (SetupSecurityGroup "test" "test-security-group"
          ⟨[⟨"vpc-1", "10.0.0.0/16", [⟨"Name", "test-vpc"⟩]⟩], [], []⟩).2)).2
      = [.authorizeIngress "sg-1" [desiredPermission "10.0.0.0/16"]] ∧
    (SetupSecurityGroup "test" "test-security-group"
      (applyCalls "sg-1"
        ⟨[⟨"vpc-1", "10.0.0.0/16", [⟨"Name", "test-vpc"⟩]⟩], [], []⟩
        (SetupSecurityGroup "test" "test-security-group"
          ⟨[⟨"vpc-1", "10.0.0.0/16", [⟨"Name", "test-vpc"⟩]⟩], [], []⟩).2)).2
      ≠ [] := by
  decide

/-- C1 amended.  Convergence needs up to three invocations, not two:
whenever the first invocation succeeds, the second invocation succeeds
and never issues a create call; when the first invocation issued a
create, the second issues exactly one authorize-ingress call; the second
issues no mutating call at all exactly when the first issued no create
(so two invocations suffice precisely in that case); and the third
invocation, against the state reflecting the first two, issues no
mutating call at all. -/
theorem ensure_posture_converges (clusterID secName freshId : String)
    (st st1 st2 : EC2State)
    (h1 : (SetupSecurityGroup clusterID secName st).1 = .ok ())
    (hst1 : st1 = applyCalls freshId st (SetupSecurityGroup clusterID secName st).2)
    (hst2 : st2 = applyCalls freshId st1 (SetupSecurityGroup clusterID secName st1).2) :
    (SetupSecurityGroup clusterID secName st1).1 = .ok () ∧
    (∀ c, c ∈ (SetupSecurityGroup clusterID secName st1).2 →
      c.isCreate = false) ∧
    ((∃ c, c ∈ (SetupSecurityGroup clusterID secName st).2 ∧
        c.isCreate = true) →
      ∃ gid ps, (SetupSecurityGroup clusterID secName st1).2
        = [.authorizeIngress gid ps]) ∧
    ((SetupSecurityGroup clusterID secName st1).2 = []
      ↔ ∀ c, c ∈ (SetupSecurityGroup clusterID secName st).2 →
          c.isCreate = false) ∧
    (SetupSecurityGroup clusterID secName st2).2 = [] := by
  rcases hv : getVpc clusterID st.vpcs with e | vpc
  · simp [SetupSecurityGroup, hv] at h1
  rcases hg : getSecurityGroup st.securityGroups secName with _ | g
  · -- the first invocation created the group
    have hc1 : (SetupSecurityGroup clusterID secName st).2
        = [.createSecurityGroup ("security group for cluster " ++ clusterID)
            secName vpc.vpcId] := by
      simp [SetupSecurityGroup, hv, hg]
    have hgs1 : st1.securityGroups
        = st.securityGroups ++ [⟨freshId, secName, vpc.vpcId, []⟩] := by
      rw [hst1, hc1]; rfl
    have hvpcs1 : st1.vpcs = st.vpcs := by
      rw [hst1]; exact applyCalls_vpcs _ _ _
    have hv1 : getVpc clusterID st1.vpcs = .ok vpc := by rw [hvpcs1]; exact hv
    have hfind1 : getSecurityGroup st1.securityGroups secName
        = some ⟨freshId, secName, vpc.vpcId, []⟩ := by
      unfold getSecurityGroup at hg ⊢
      rw [hgs1, List.find?_append, hg]
      simp
    have hc2 : SetupSecurityGroup clusterID secName st1
        = (.ok (), [.authorizeIngress freshId
            [desiredPermission vpc.cidrBlock]]) := by
      simp [SetupSecurityGroup, hv1, hfind1]
    refine ⟨by rw [hc2], ?_, ?_, ?_, ?_⟩
    · intro c hc
      rw [hc2] at hc
      simp at hc
      subst hc
      rfl
    · intro _
      exact ⟨freshId, [desiredPermission vpc.cidrBlock], by rw [hc2]⟩
    · constructor
      · intro h
        rw [hc2] at h
        simp at h
      · intro hall
        exfalso
        have hcr := hall
          (.createSecurityGroup ("security group for cluster " ++ clusterID)
            secName vpc.vpcId)
          (by rw [hc1]; exact List.mem_singleton_self _)
        simp [AwsCall.isCreate] at hcr
    · have hgs2 : st2.securityGroups
          = st1.securityGroups.map (fun g2 =>
              if g2.groupId == freshId then
                {g2 with ipPermissions :=
                  g2.ipPermissions ++ [desiredPermission vpc.cidrBlock]}
              else g2) := by
        rw [hst2, hc2]; rfl
      have hvpcs2 : st2.vpcs = st1.vpcs := by
        rw [hst2]; exact applyCalls_vpcs _ _ _
      have hv2 : getVpc clusterID st2.vpcs = .ok vpc := by
        rw [hvpcs2]; exact hv1
      have hfind2 : getSecurityGroup st2.securityGroups secName
          = some ⟨freshId, secName, vpc.vpcId,
              [desiredPermission vpc.cidrBlock]⟩ := by
        rw [hgs2, getSecurityGroup_map_upd _ _ _
          (fun g2 => by by_cases h : g2.groupId == freshId <;> simp [h]), hfind1]
        simp
      simp [SetupSecurityGroup, hv2, hfind2]
  · by_cases hmem : desiredPermission vpc.cidrBlock ∈ g.ipPermissions
    · -- already converged: nothing mutates anywhere
      have hc1 : (SetupSecurityGroup clusterID secName st).2 = [] := by
        simp [SetupSecurityGroup, hv, hg, hmem]
      have hs1 : st1 = st := by rw [hst1, hc1]; rfl
      have hc2 : SetupSecurityGroup clusterID secName st1 = (.ok (), []) := by
        rw [hs1]; simp [SetupSecurityGroup, hv, hg, hmem]
      have hs2 : st2 = st := by rw [hst2, hc2]; exact hs1
      refine ⟨by rw [hc2], ?_, ?_, ?_, ?_⟩
      · intro c hc
        rw [hc2] at hc
        simp at hc
      · rintro ⟨c, hc, _⟩
        rw [hc1] at hc
        simp at hc
      · constructor
        · intro _ c hc
          rw [hc1] at hc
          simp at hc
        · intro _
          rw [hc2]
      · have hc3 : SetupSecurityGroup clusterID secName st2 = (.ok (), []) := by
          rw [hs2]; simp [SetupSecurityGroup, hv, hg, hmem]
        rw [hc3]
    · -- the first invocation authorized the missing permission
      have hc1 : (SetupSecurityGroup clusterID secName st).2
          = [.authorizeIngress g.groupId
              [desiredPermission vpc.cidrBlock]] := by
        simp [SetupSecurityGroup, hv, hg, hmem]
      have hgs1 : st1.securityGroups
          = st.securityGroups.map (fun g2 =>
              if g2.groupId == g.groupId then
                {g2 with ipPermissions :=
                  g2.ipPermissions ++ [desiredPermission vpc.cidrBlock]}
              else g2) := by
        rw [hst1, hc1]; rfl
      have hvpcs1 : st1.vpcs = st.vpcs := by
        rw [hst1]; exact applyCalls_vpcs _ _ _
      have hv1 : getVpc clusterID st1.vpcs = .ok vpc := by rw [hvpcs1]; exact hv
      have hfind1 : getSecurityGroup st1.securityGroups secName
          = some {g with ipPermissions :=
              g.ipPermissions ++ [desiredPermission vpc.cidrBlock]} := by
        rw [hgs1, getSecurityGroup_map_upd _ _ _
          (fun g2 => by by_cases h : g2.groupId == g.groupId <;> simp [h]), hg]
        simp
      have hc2 : SetupSecurityGroup clusterID secName st1 = (.ok (), []) := by
        simp [SetupSecurityGroup, hv1, hfind1]
      have hs2 : st2 = st1 := by rw [hst2, hc2]; rfl
      refine ⟨by rw [hc2], ?_, ?_, ?_, ?_⟩
      · intro c hc
        rw [hc2] at hc
        simp at hc
      · rintro ⟨c, hc, hcr⟩
        rw [hc1] at hc
        simp at hc
        subst hc
        simp [AwsCall.isCreate] at hcr
      · constructor
        · intro _ c hc
          rw [hc1] at hc
          simp at hc
          subst hc
          rfl
        · intro _
          rw [hc2]
      · have hc3 : SetupSecurityGroup clusterID secName st2 = (.ok (), []) := by
          rw [hs2, hc2]
        rw [hc3]

/-- C1 amended witness: in the create scenario the second invocation is
exactly one authorize-ingress call and the third invocation is the no-op
fixed point. -/
theorem ensure_posture_converges_witness :
    (∃ gid ps,
      (SetupSecurityGroup "w1" "w1-sg"
        (applyCalls "sg-9"
          ⟨[⟨"vpc-3", "10.9.0.0/16", [⟨"Name", "w1-vpc"⟩]⟩], [], []⟩
          (SetupSecurityGroup "w1" "w1-sg"
            ⟨[⟨"vpc-3", "10.9.0.0/16", [⟨"Name", "w1-vpc"⟩]⟩], [], []⟩).2)).2
        = [AwsCall.authorizeIngress gid ps]) ∧
    (SetupSecurityGroup "w1" "w1-sg"
      (applyCalls "sg-9"
        (applyCalls "sg-9"
          ⟨[⟨"vpc-3", "10.9.0.0/16", [⟨"Name", "w1-vpc"⟩]⟩], [], []⟩
          (SetupSecurityGroup "w1" "w1-sg"
            ⟨[⟨"vpc-3", "10.9.0.0/16", [⟨"Name", "w1-vpc"⟩]⟩], [], []⟩).2)
        (SetupSecurityGroup "w1" "w1-sg"
          (applyCalls "sg-9"
            ⟨[⟨"vpc-3", "10.9.0.0/16", [⟨"Name", "w1-vpc"⟩]⟩], [], []⟩
            (SetupSecurityGroup "w1" "w1-sg"
              ⟨[⟨"vpc-3", "10.9.0.0/16", [⟨"Name", "w1-vpc"⟩]⟩], [], []⟩).2)).2)).2
      = [] := by
  have h := ensure_posture_converges "w1" "w1-sg" "sg-9"
    ⟨[⟨"vpc-3", "10.9.0.0/16", [⟨"Name", "w1-vpc"⟩]⟩], [], []⟩ _ _
    (by decide) rfl rfl
  exact ⟨h.2.2.1 ⟨.createSecurityGroup "security group for cluster w1"
    "w1-sg" "vpc-3", by decide, rfl⟩, h.2.2.2.2⟩
